import Mathlib

/-!
Verification of the UnrealMCP command bridge (`UnrealMCPBridge.cpp`) and the
string-returning command-family routers, as a shallow embedding.

JSON values are modelled by an inductive `Json`; an `FJsonObject` is a list of
string-keyed fields (`JsonObject`).  The dispatcher `ExecuteCommand` is
modelled in two layers, exactly mirroring the source: the outer function
(`executeCommand`) unconditionally queues a task on the game thread and blocks
on the future, and the task body (`executeCommandTask`) performs the
command-name routing, handler invocation, result flattening and exception
catching of lines 260-437 of `UnrealMCPBridge.cpp`.  Command handlers are
external collaborators and are supplied through a `HandlerEnv`.

The lifecycle functions `StartServer`/`StopServer` are modelled as transitions
on a `BridgeState`, with socket/thread-creation outcomes supplied through a
`StartOutcome` record since they depend on the operating system.
-/

namespace UnrealMCP

/-- JSON values (model of the engine's `FJsonValue`). -/
inductive Json where
  | null : Json
  | bool : Bool → Json
  | num : Int → Json
  | str : String → Json
  | arr : List Json → Json
  | obj : List (String × Json) → Json

/-- A JSON object (model of the engine's `FJsonObject`): an ordered list of
string-keyed fields.  `TMap` preserves insertion order and keeps keys unique;
field lookup takes the first matching key. -/
def JsonObject : Type := List (String × Json)

/-- Model of `FJsonObject::TryGetField`: the first field with the given name. -/
def getField (o : JsonObject) (name : String) : Option Json :=
  (List.find? (fun p => p.1 == name) o).map (fun p => p.2)

/-- Model of `FJsonObject::HasField`. -/
def hasField (o : JsonObject) (name : String) : Bool :=
  (getField o name).isSome

/-- Model of `FString::ToBool` (used by `FJsonValueString::TryGetBool`):
"true"/"yes"/"on" parse as true, "false"/"no"/"off" as false, anything else
through `Atoi`. -/
def strToBool (s : String) : Bool :=
  let l := s.toLower
  if l == "true" || l == "yes" || l == "on" then true
  else if l == "false" || l == "no" || l == "off" then false
  else !((s.toInt?.getD 0) == 0)

/-- Model of `FJsonValue::AsBool`: booleans are returned as-is, numbers compare
against zero, strings go through `FString::ToBool`; other kinds yield false. -/
def Json.asBool : Json → Bool
  | .bool b => b
  | .num n => !(n == 0)
  | .str s => strToBool s
  | _ => false

/-- Model of `FJsonValue::AsString`: strings as-is, booleans and numbers
printed; other kinds yield the empty string. -/
def Json.asString : Json → String
  | .str s => s
  | .bool b => if b then "true" else "false"
  | .num n => toString n
  | _ => ""

/-- Model of `FJsonObject::GetBoolField` (field coerced through `AsBool`). -/
def getBoolField (o : JsonObject) (name : String) : Bool :=
  ((getField o name).getD Json.null).asBool

/-- Model of `FJsonObject::GetStringField`. -/
def getStringField (o : JsonObject) (name : String) : String :=
  ((getField o name).getD Json.null).asString

/-! Command-name lists of the dispatch chain in `UUnrealMCPBridge::ExecuteCommand`
(lines 268-388), one list per handler family, in source order. -/

/-- Editor commands (lines 274-284). -/
def editorCommandNames : List String :=
  ["get_actors_in_level", "find_actors_by_name", "spawn_actor", "create_actor",
   "delete_actor", "set_actor_transform", "get_actor_properties",
   "set_actor_property", "spawn_blueprint_actor", "focus_viewport",
   "take_screenshot"]

/-- Blueprint commands (lines 289-296). -/
def blueprintCommandNames : List String :=
  ["create_blueprint", "add_component_to_blueprint", "set_component_property",
   "set_physics_properties", "compile_blueprint", "set_blueprint_property",
   "set_static_mesh_properties", "set_pawn_properties"]

/-- Blueprint node commands (lines 301-309). -/
def blueprintNodeCommandNames : List String :=
  ["connect_blueprint_nodes", "add_blueprint_get_self_component_reference",
   "add_blueprint_self_reference", "find_blueprint_nodes",
   "add_blueprint_event_node", "add_blueprint_input_action_node",
   "add_blueprint_function_node", "add_blueprint_get_component_node",
   "add_blueprint_variable"]

/-- Project commands (line 314). -/
def projectCommandNames : List String :=
  ["create_input_mapping"]

/-- UMG commands (lines 319-324). -/
def umgCommandNames : List String :=
  ["create_umg_widget_blueprint", "add_text_block_to_widget",
   "add_button_to_widget", "bind_widget_event", "set_text_block_binding",
   "add_widget_to_viewport"]

/-- Asset tools commands (lines 329-336). -/
def assetCommandNames : List String :=
  ["load_asset", "save_asset", "duplicate_asset", "delete_asset",
   "rename_asset", "move_asset", "import_asset", "export_asset"]

/-- Content browser commands (lines 343-345). -/
def contentBrowserCommandNames : List String :=
  ["list_assets", "get_asset_metadata", "search_assets"]

/-- Asset registry commands (lines 352-353). -/
def assetRegistryCommandNames : List String :=
  ["get_asset_references", "get_asset_dependencies"]

/-- Level editor commands (lines 360-366). -/
def levelCommandNames : List String :=
  ["create_level", "save_level", "load_level", "set_level_visibility",
   "create_streaming_level", "load_streaming_level", "unload_streaming_level"]

/-- Landscape commands (lines 373-376). -/
def landscapeCommandNames : List String :=
  ["create_landscape", "modify_landscape", "paint_landscape_layer",
   "get_landscape_info"]

/-- World commands (line 383). -/
def worldCommandNames : List String :=
  ["get_current_level_info"]

/-- Every command name recognized by the dispatch chain, including the built-in
`ping`. -/
def allRegisteredCommandNames : List String :=
  "ping" :: (editorCommandNames ++ blueprintCommandNames ++
    blueprintNodeCommandNames ++ projectCommandNames ++ umgCommandNames ++
    assetCommandNames ++ contentBrowserCommandNames ++
    assetRegistryCommandNames ++ levelCommandNames ++ landscapeCommandNames ++
    worldCommandNames)

/-- The branch of the dispatch chain that a command name selects. -/
inductive RouteTarget where
  | ping
  | editor
  | blueprint
  | blueprintNode
  | project
  | umg
  | asset
  | contentBrowser
  | assetRegistry
  | level
  | landscape
  | world
  | unknown
deriving DecidableEq

/-- The else-if chain of `ExecuteCommand` (lines 268-399), condensed: each
branch tests the command name against its family's list, in source order, and
an unmatched name falls through to the unknown-command branch. -/
def route (commandType : String) : RouteTarget :=
  if commandType = "ping" then .ping
  else if commandType ∈ editorCommandNames then .editor
  else if commandType ∈ blueprintCommandNames then .blueprint
  else if commandType ∈ blueprintNodeCommandNames then .blueprintNode
  else if commandType ∈ projectCommandNames then .project
  else if commandType ∈ umgCommandNames then .umg
  else if commandType ∈ assetCommandNames then .asset
  else if commandType ∈ contentBrowserCommandNames then .contentBrowser
  else if commandType ∈ assetRegistryCommandNames then .assetRegistry
  else if commandType ∈ levelCommandNames then .level
  else if commandType ∈ landscapeCommandNames then .landscape
  else if commandType ∈ worldCommandNames then .world
  else .unknown

/-- Outcome of invoking an object-returning handler family
(`HandleCommand` returning `TSharedPtr<FJsonObject>`): either a returned
pointer (`none` models a null shared pointer) or a `std::exception` escaping
with a message. -/
inductive ObjOutcome where
  | ok : Option JsonObject → ObjOutcome
  | raise : String → ObjOutcome

/-- Outcome of invoking a string-returning handler family
(`HandleCommand` returning `FString`). -/
inductive StrOutcome where
  | ok : String → StrOutcome
  | raise : String → StrOutcome

/-- The external collaborators of the dispatcher: one invocation function per
handler family, plus the engine's JSON deserializer used on the
string-returning families (`FJsonSerializer::Deserialize`, which leaves its
output object null on failure). -/
structure HandlerEnv where
  editor : String → JsonObject → ObjOutcome
  blueprint : String → JsonObject → ObjOutcome
  blueprintNode : String → JsonObject → ObjOutcome
  project : String → JsonObject → ObjOutcome
  umg : String → JsonObject → ObjOutcome
  asset : String → JsonObject → StrOutcome
  contentBrowser : String → JsonObject → StrOutcome
  assetRegistry : String → JsonObject → StrOutcome
  level : String → JsonObject → StrOutcome
  landscape : String → JsonObject → StrOutcome
  world : String → JsonObject → StrOutcome
  deserialize : String → Option JsonObject

/-- The success envelope built at lines 417-418: status then result, in
insertion order. -/
def successEnvelope (r : JsonObject) : JsonObject :=
  [("status", Json.str "success"), ("result", Json.obj r)]

/-- The error envelope built at lines 391-392, 423-424 and 429-430: status then
error, in insertion order. -/
def errorEnvelope (msg : String) : JsonObject :=
  [("status", Json.str "error"), ("error", Json.str msg)]

/-- Lines 401-425: the success check and flattening of a handler result into
the response envelope.  A null result object (`none`) makes line 405
dereference a null shared pointer, so no envelope is produced. -/
def normalizeResult (resultJson : Option JsonObject) : Option JsonObject :=
  match resultJson with
  | none => none
  | some r =>
      let bSuccess := if hasField r "success" then getBoolField r "success" else true
      let errorMessage :=
        if !bSuccess && hasField r "error" then getStringField r "error" else ""
      if bSuccess then some (successEnvelope r) else some (errorEnvelope errorMessage)

/-- An object-family branch: the handler result is normalized; an escaping
exception is caught at lines 427-431 and becomes an error envelope. -/
def runObjFamily (o : ObjOutcome) : Option JsonObject :=
  match o with
  | .ok r => normalizeResult r
  | .raise msg => some (errorEnvelope msg)

/-- A string-family branch: the returned string is deserialized (a failed
deserialization leaves the result object null) and normalized; an escaping
exception becomes an error envelope. -/
def runStrFamily (deserialize : String → Option JsonObject) (o : StrOutcome) :
    Option JsonObject :=
  match o with
  | .ok s => normalizeResult (deserialize s)
  | .raise msg => some (errorEnvelope msg)

/-- The task body queued on the game thread by `ExecuteCommand`
(lines 260-437): route the command name, invoke the selected family, normalize
the result; an unknown name returns the unknown-command error envelope
directly (lines 389-399), and the `ping` built-in answers with
`message: pong` (lines 268-272). -/
def executeCommandTask (env : HandlerEnv) (commandType : String)
    (params : JsonObject) : Option JsonObject :=
  match route commandType with
  | .ping => normalizeResult (some [("message", Json.str "pong")])
  | .editor => runObjFamily (env.editor commandType params)
  | .blueprint => runObjFamily (env.blueprint commandType params)
  | .blueprintNode => runObjFamily (env.blueprintNode commandType params)
  | .project => runObjFamily (env.project commandType params)
  | .umg => runObjFamily (env.umg commandType params)
  | .asset => runStrFamily env.deserialize (env.asset commandType params)
  | .contentBrowser => runStrFamily env.deserialize (env.contentBrowser commandType params)
  | .assetRegistry => runStrFamily env.deserialize (env.assetRegistry commandType params)
  | .level => runStrFamily env.deserialize (env.level commandType params)
  | .landscape => runStrFamily env.deserialize (env.landscape commandType params)
  | .world => runStrFamily env.deserialize (env.world commandType params)
  | .unknown => some (errorEnvelope ("Unknown command: " ++ commandType))

/-- What one call of `ExecuteCommand` does, beyond its returned value: whether
a task was queued on the game thread and whether the caller blocked on the
future. -/
structure DispatchTrace where
  queuedOnGameThread : Bool
  blockedOnFuture : Bool
  response : Option JsonObject

/-- `UUnrealMCPBridge::ExecuteCommand` (lines 251-440).  The source
unconditionally creates a promise/future pair, queues the task via
`AsyncTask(ENamedThreads::GameThread, ...)` and blocks on `Future.Get()`.  It
contains no check of which thread the caller runs on, so the
`callerIsGameThread` argument is not consulted anywhere in the body. -/
def executeCommand (env : HandlerEnv) (callerIsGameThread : Bool)
    (commandType : String) (params : JsonObject) : DispatchTrace :=
  { queuedOnGameThread := true
    blockedOnFuture := true
    response := executeCommandTask env commandType params }

/-- A handler environment in which every family hands the dispatcher the same
result object `r`: the object families return it directly and the string
families return a string that deserializes to it. -/
def constEnv (r : JsonObject) : HandlerEnv :=
  { editor := fun _ _ => .ok (some r)
    blueprint := fun _ _ => .ok (some r)
    blueprintNode := fun _ _ => .ok (some r)
    project := fun _ _ => .ok (some r)
    umg := fun _ _ => .ok (some r)
    asset := fun _ _ => .ok ""
    contentBrowser := fun _ _ => .ok ""
    assetRegistry := fun _ _ => .ok ""
    level := fun _ _ => .ok ""
    landscape := fun _ _ => .ok ""
    world := fun _ _ => .ok ""
    deserialize := fun _ => some r }

/-- A handler environment in which every family raises an internal error with
the given message. -/
def raiseEnv (msg : String) : HandlerEnv :=
  { editor := fun _ _ => .raise msg
    blueprint := fun _ _ => .raise msg
    blueprintNode := fun _ _ => .raise msg
    project := fun _ _ => .raise msg
    umg := fun _ _ => .raise msg
    asset := fun _ _ => .raise msg
    contentBrowser := fun _ _ => .raise msg
    assetRegistry := fun _ _ => .raise msg
    level := fun _ _ => .raise msg
    landscape := fun _ _ => .raise msg
    world := fun _ _ => .raise msg
    deserialize := fun _ => none }

/-- A trivial handler environment (every family returns an empty object). -/
def trivEnv : HandlerEnv := constEnv []

/-! ## Bridge lifecycle (`StartServer` / `StopServer`, lines 154-248) -/

/-- Log lines emitted by the lifecycle functions, one constructor per
`UE_LOG` call site. -/
inductive LogEvent where
  | warnAlreadyRunning
  | errorNoSubsystem
  | errorCreateSocket
  | errorBind
  | errorListen
  | serverStarted
  | errorCreateThread
  | serverStopped
deriving DecidableEq

/-- The bridge's mutable server state: the running flag, the listener and
connection sockets, the listener thread, and the log.  Sockets and threads are
identified by opaque numeric descriptors. -/
structure BridgeState where
  bIsRunning : Bool
  listenerSocket : Option Nat
  connectionSocket : Option Nat
  serverThread : Option Nat
  log : List LogEvent
deriving DecidableEq

/-- The state established by `Initialize` (lines 109-112): not running, no
sockets, no thread. -/
def initialBridgeState : BridgeState :=
  { bIsRunning := false
    listenerSocket := none
    connectionSocket := none
    serverThread := none
    log := [] }

/-- `UUnrealMCPBridge::StopServer` (lines 217-248): an early return when the
server is not running; otherwise the running flag is cleared, the listener
thread is killed and deleted, and both sockets are destroyed and reset. -/
def stopServer (s : BridgeState) : BridgeState :=
  if !s.bIsRunning then s
  else
    { bIsRunning := false
      listenerSocket := none
      connectionSocket := none
      serverThread := none
      log := s.log ++ [LogEvent.serverStopped] }

/-- The environment-dependent outcomes of one `StartServer` call: whether the
socket subsystem is available, whether socket creation, bind, listen and
thread creation succeed, and the descriptors produced on success. -/
structure StartOutcome where
  subsystemOk : Bool
  socketOk : Bool
  bindOk : Bool
  listenOk : Bool
  threadOk : Bool
  socketId : Nat
  threadId : Nat

/-- `UUnrealMCPBridge::StartServer` (lines 154-214): an early return when
already running; each of subsystem lookup, socket creation, bind and listen
failures logs an error and returns without touching the state; on success the
listener socket is stored, the running flag set, and the listener thread
created; a thread-creation failure logs an error and calls `StopServer`. -/
def startServer (s : BridgeState) (out : StartOutcome) : BridgeState :=
  if s.bIsRunning then { s with log := s.log ++ [LogEvent.warnAlreadyRunning] }
  else if !out.subsystemOk then { s with log := s.log ++ [LogEvent.errorNoSubsystem] }
  else if !out.socketOk then { s with log := s.log ++ [LogEvent.errorCreateSocket] }
  else if !out.bindOk then { s with log := s.log ++ [LogEvent.errorBind] }
  else if !out.listenOk then { s with log := s.log ++ [LogEvent.errorListen] }
  else
    let s1 : BridgeState :=
      { s with listenerSocket := some out.socketId
               bIsRunning := true
               log := s.log ++ [LogEvent.serverStarted] }
    if !out.threadOk then
      stopServer { s1 with log := s1.log ++ [LogEvent.errorCreateThread] }
    else { s1 with serverThread := some out.threadId }

/-! ## A reference compact JSON writer

The string-returning command families build their responses as JSON text.  To
state that such a string denotes a JSON object, we give a reference compact
serializer for `Json`; a string `s` denotes the object `o` when
`s = Json.serialize (Json.obj o)`. -/

/-- One serialized character of a JSON string body, with the standard
escapes. -/
def escapeChar (ch : Char) : List Char :=
  if ch = '\"' then ['\\', '\"']
  else if ch = '\\' then ['\\', '\\']
  else if ch = '\n' then ['\\', 'n']
  else if ch = '\t' then ['\\', 't']
  else if ch = '\r' then ['\\', 'r']
  else if ch = '\x08' then ['\\', 'b']
  else if ch = '\x0c' then ['\\', 'f']
  else if ch.val < 32 then ['\\', 'u', '0', '0',
    (if ch.val / 16 < 10 then Char.ofNat (48 + (ch.val / 16).toNat)
     else Char.ofNat (97 + (ch.val / 16).toNat - 10)),
    (if ch.val % 16 < 10 then Char.ofNat (48 + (ch.val % 16).toNat)
     else Char.ofNat (97 + (ch.val % 16).toNat - 10))]
  else [ch]

/-- The body of a serialized JSON string. -/
def escapeString (s : String) : String :=
  String.mk (List.flatten (s.data.map escapeChar))

/-- A character that serializes to itself (no escaping needed). -/
def jsonSafeChar (ch : Char) : Bool :=
  !(ch = '\"' || ch = '\\' || ch.val < 32)

/-- A string whose characters all serialize to themselves. -/
def jsonSafe (s : String) : Bool :=
  s.data.all jsonSafeChar

mutual

/-- Reference compact JSON serialization of a value. -/
def Json.serialize : Json → String
  | .null => "null"
  | .bool b => if b then "true" else "false"
  | .num n => toString n
  | .str s => "\"" ++ escapeString s ++ "\""
  | .arr xs => "[" ++ serializeItems xs ++ "]"
  | .obj fs => "\x7b" ++ serializeFields fs ++ "\x7d"

/-- Comma-separated serialization of array items. -/
def serializeItems : List Json → String
  | [] => ""
  | [x] => Json.serialize x
  | x :: y :: rest => Json.serialize x ++ "," ++ serializeItems (y :: rest)

/-- Comma-separated serialization of object fields. -/
def serializeFields : List (String × Json) → String
  | [] => ""
  | [(k, v)] => "\"" ++ escapeString k ++ "\":" ++ Json.serialize v
  | (k, v) :: f :: rest =>
      "\"" ++ escapeString k ++ "\":" ++ Json.serialize v ++ "," ++
        serializeFields (f :: rest)

end

/-! ## String-returning command-family routers

Each family's `HandleCommand` dispatches on the sub-command name and falls
through to a `success:false` JSON error string for unrecognized names.  The
bodies of the recognized sub-commands are external business logic, supplied as
the function `sub`. -/

/-- `FUnrealMCPAssetCommands::HandleCommand`
(`UnrealMCPAssetCommands.cpp` lines 16-52). -/
def FUnrealMCPAssetCommands.HandleCommand (sub : String → JsonObject → String)
    (commandType : String) (params : JsonObject) : String :=
  if commandType = "load_asset" then sub commandType params
  else if commandType = "save_asset" then sub commandType params
  else if commandType = "duplicate_asset" then sub commandType params
  else if commandType = "delete_asset" then sub commandType params
  else if commandType = "rename_asset" then sub commandType params
  else if commandType = "move_asset" then sub commandType params
  else if commandType = "import_asset" then sub commandType params
  else if commandType = "export_asset" then sub commandType params
  else "\x7b\"success\":false,\"error\":\"Unknown asset command: " ++ commandType ++ "\"\x7d"

/-- `FUnrealMCPContentBrowserCommands::HandleCommand`
(`UnrealMCPContentBrowserCommands.cpp` lines 9-25). -/
def FUnrealMCPContentBrowserCommands.HandleCommand
    (sub : String → JsonObject → String) (commandType : String)
    (params : JsonObject) : String :=
  if commandType = "list_assets" then sub commandType params
  else if commandType = "get_asset_metadata" then sub commandType params
  else if commandType = "search_assets" then sub commandType params
  else "\x7b\"success\":false,\"error\":\"Unknown content browser command: " ++ commandType ++ "\"\x7d"

/-- `FUnrealMCPLevelCommands::HandleCommand`
(`UnrealMCPLevelCommands.cpp` lines 23-55). -/
def FUnrealMCPLevelCommands.HandleCommand (sub : String → JsonObject → String)
    (commandType : String) (params : JsonObject) : String :=
  if commandType = "create_level" then sub commandType params
  else if commandType = "save_level" then sub commandType params
  else if commandType = "load_level" then sub commandType params
  else if commandType = "set_level_visibility" then sub commandType params
  else if commandType = "create_streaming_level" then sub commandType params
  else if commandType = "load_streaming_level" then sub commandType params
  else if commandType = "unload_streaming_level" then sub commandType params
  else "\x7b\"success\":false,\"error\":\"Unknown level command\"\x7d"

/-- `FUnrealMCPWorldCommands::HandleCommand`
(`UnrealMCPWorldCommands.cpp` lines 13-21). -/
def FUnrealMCPWorldCommands.HandleCommand (sub : String → JsonObject → String)
    (commandType : String) (params : JsonObject) : String :=
  if commandType = "get_current_level_info" then sub commandType params
  else "\x7b\"success\":false,\"error\":\"Unknown world command\"\x7d"

/-- The handler result object carries a boolean in its `success` field when
one is present at all — the typing the handler interface prescribes for
family results. -/
def successFieldBoolTyped (r : JsonObject) : Prop :=
  ∀ v, getField r "success" = some v → ∃ b, v = Json.bool b

/-- The wire-level response-envelope contract: the status field is exactly
`success` or `error`, the result field is present exactly on success, and the
error field exactly on error. -/
def wireContractOk (e : JsonObject) : Prop :=
  (getField e "status" = some (Json.str "success") ∨
    getField e "status" = some (Json.str "error")) ∧
  (hasField e "result" = true ↔ getField e "status" = some (Json.str "success")) ∧
  (hasField e "error" = true ↔ getField e "status" = some (Json.str "error"))

/-! ## Routing lemmas -/

/-- Membership in the registered-command list, spelled out family by
family. -/
theorem mem_allRegistered_iff (name : String) :
    name ∈ allRegisteredCommandNames ↔
      (name = "ping" ∨ name ∈ editorCommandNames ∨
       name ∈ blueprintCommandNames ∨ name ∈ blueprintNodeCommandNames ∨
       name ∈ projectCommandNames ∨ name ∈ umgCommandNames ∨
       name ∈ assetCommandNames ∨ name ∈ contentBrowserCommandNames ∨
       name ∈ assetRegistryCommandNames ∨ name ∈ levelCommandNames ∨
       name ∈ landscapeCommandNames ∨ name ∈ worldCommandNames) := by
  simp only [allRegisteredCommandNames, List.mem_cons, List.mem_append,
    or_assoc]

/-- Only the first branch of the dispatch chain selects the ping built-in. -/
theorem route_eq_ping (name : String) (h : route name = RouteTarget.ping) :
    name = "ping" := by
  unfold route at h
  by_cases h0 : name = "ping"
  · exact h0
  rw [if_neg h0] at h
  by_cases h1 : name ∈ editorCommandNames
  · rw [if_pos h1] at h; cases h
  rw [if_neg h1] at h
  by_cases h2 : name ∈ blueprintCommandNames
  · rw [if_pos h2] at h; cases h
  rw [if_neg h2] at h
  by_cases h3 : name ∈ blueprintNodeCommandNames
  · rw [if_pos h3] at h; cases h
  rw [if_neg h3] at h
  by_cases h4 : name ∈ projectCommandNames
  · rw [if_pos h4] at h; cases h
  rw [if_neg h4] at h
  by_cases h5 : name ∈ umgCommandNames
  · rw [if_pos h5] at h; cases h
  rw [if_neg h5] at h
  by_cases h6 : name ∈ assetCommandNames
  · rw [if_pos h6] at h; cases h
  rw [if_neg h6] at h
  by_cases h7 : name ∈ contentBrowserCommandNames
  · rw [if_pos h7] at h; cases h
  rw [if_neg h7] at h
  by_cases h8 : name ∈ assetRegistryCommandNames
  · rw [if_pos h8] at h; cases h
  rw [if_neg h8] at h
  by_cases h9 : name ∈ levelCommandNames
  · rw [if_pos h9] at h; cases h
  rw [if_neg h9] at h
  by_cases h10 : name ∈ landscapeCommandNames
  · rw [if_pos h10] at h; cases h
  rw [if_neg h10] at h
  by_cases h11 : name ∈ worldCommandNames
  · rw [if_pos h11] at h; cases h
  rw [if_neg h11] at h
  cases h

/-- A name that falls through to the unknown-command branch is not a
registered command name. -/
theorem not_mem_of_route_unknown (name : String)
    (h : route name = RouteTarget.unknown) :
    name ∉ allRegisteredCommandNames := by
  intro hmem
  rw [mem_allRegistered_iff] at hmem
  unfold route at h
  by_cases h0 : name = "ping"
  · rw [if_pos h0] at h; cases h
  rw [if_neg h0] at h
  by_cases h1 : name ∈ editorCommandNames
  · rw [if_pos h1] at h; cases h
  rw [if_neg h1] at h
  by_cases h2 : name ∈ blueprintCommandNames
  · rw [if_pos h2] at h; cases h
  rw [if_neg h2] at h
  by_cases h3 : name ∈ blueprintNodeCommandNames
  · rw [if_pos h3] at h; cases h
  rw [if_neg h3] at h
  by_cases h4 : name ∈ projectCommandNames
  · rw [if_pos h4] at h; cases h
  rw [if_neg h4] at h
  by_cases h5 : name ∈ umgCommandNames
  · rw [if_pos h5] at h; cases h
  rw [if_neg h5] at h
  by_cases h6 : name ∈ assetCommandNames
  · rw [if_pos h6] at h; cases h
  rw [if_neg h6] at h
  by_cases h7 : name ∈ contentBrowserCommandNames
  · rw [if_pos h7] at h; cases h
  rw [if_neg h7] at h
  by_cases h8 : name ∈ assetRegistryCommandNames
  · rw [if_pos h8] at h; cases h
  rw [if_neg h8] at h
  by_cases h9 : name ∈ levelCommandNames
  · rw [if_pos h9] at h; cases h
  rw [if_neg h9] at h
  by_cases h10 : name ∈ landscapeCommandNames
  · rw [if_pos h10] at h; cases h
  rw [if_neg h10] at h
  by_cases h11 : name ∈ worldCommandNames
  · rw [if_pos h11] at h; cases h
  tauto

/-- A name that is not registered falls through to the unknown-command
branch. -/
theorem route_unknown_of_not_mem (name : String)
    (h : name ∉ allRegisteredCommandNames) :
    route name = RouteTarget.unknown := by
  rw [mem_allRegistered_iff] at h
  push_neg at h
  obtain ⟨h0, h1, h2, h3, h4, h5, h6, h7, h8, h9, h10, h11⟩ := h
  unfold route
  rw [if_neg h0, if_neg h1, if_neg h2, if_neg h3, if_neg h4, if_neg h5,
    if_neg h6, if_neg h7, if_neg h8, if_neg h9, if_neg h10, if_neg h11]

/-- On every registered non-ping command, the dispatcher run against
`constEnv r` normalizes exactly the handler result `r`. -/
theorem executeCommandTask_constEnv (r : JsonObject) (name : String)
    (params : JsonObject) (hmem : name ∈ allRegisteredCommandNames)
    (hping : name ≠ "ping") :
    executeCommandTask (constEnv r) name params = normalizeResult (some r) := by
  have hu : route name ≠ RouteTarget.unknown :=
    fun hx => not_mem_of_route_unknown name hx hmem
  have hp : route name ≠ RouteTarget.ping :=
    fun hx => hping (route_eq_ping name hx)
  unfold executeCommandTask
  cases hx : route name
  case ping => exact absurd hx hp
  case unknown => exact absurd hx hu
  all_goals rfl

/-- On every registered non-ping command, the dispatcher run against
`raiseEnv msg` produces the caught-exception error envelope. -/
theorem executeCommandTask_raiseEnv (msg : String) (name : String)
    (params : JsonObject) (hmem : name ∈ allRegisteredCommandNames)
    (hping : name ≠ "ping") :
    executeCommandTask (raiseEnv msg) name params = some (errorEnvelope msg) := by
  have hu : route name ≠ RouteTarget.unknown :=
    fun hx => not_mem_of_route_unknown name hx hmem
  have hp : route name ≠ RouteTarget.ping :=
    fun hx => hping (route_eq_ping name hx)
  unfold executeCommandTask
  cases hx : route name
  case ping => exact absurd hx hp
  case unknown => exact absurd hx hu
  all_goals rfl

/-! ## Envelope-shape lemmas -/

/-- Success envelopes meet the wire contract. -/
theorem wireContractOk_success (r : JsonObject) :
    wireContractOk (successEnvelope r) := by
  refine ⟨Or.inl rfl, ⟨fun _ => rfl, fun _ => rfl⟩,
    ⟨(fun h => nomatch h), fun h => ?_⟩⟩
  injection h with h2
  injection h2 with h3
  exact absurd h3 (by decide)

/-- Error envelopes meet the wire contract. -/
theorem wireContractOk_error (msg : String) :
    wireContractOk (errorEnvelope msg) := by
  refine ⟨Or.inr rfl, ⟨(fun h => nomatch h), fun h => ?_⟩,
    ⟨fun _ => rfl, fun _ => rfl⟩⟩
  injection h with h2
  injection h2 with h3
  exact absurd h3 (by decide)

/-- A handler result without a `success` field is treated as unconditional
success, with the whole object as payload. -/
theorem normalize_no_success_field (r : JsonObject)
    (hf : hasField r "success" = false) :
    normalizeResult (some r) = some (successEnvelope r) := by
  simp [normalizeResult, hf]

/-- A handler result whose `success` field is the boolean true yields the
success envelope with the whole object as payload. -/
theorem normalize_success_true (r : JsonObject)
    (h : getField r "success" = some (Json.bool true)) :
    normalizeResult (some r) = some (successEnvelope r) := by
  have hf : hasField r "success" = true := by simp [hasField, h]
  have hb : getBoolField r "success" = true := by
    simp [getBoolField, h, Json.asBool]
  simp [normalizeResult, hf, hb]

/-- A handler result whose `success` field is the boolean false yields the
error envelope carrying the result's `error` field (or the empty string when
there is none). -/
theorem normalize_success_false (r : JsonObject)
    (h : getField r "success" = some (Json.bool false)) :
    normalizeResult (some r) =
      some (errorEnvelope
        (if hasField r "error" then getStringField r "error" else "")) := by
  have hf : hasField r "success" = true := by simp [hasField, h]
  have hb : getBoolField r "success" = false := by
    simp [getBoolField, h, Json.asBool]
  simp [normalizeResult, hf, hb]

/-- Every envelope the normalization step produces meets the wire contract. -/
theorem wireContractOk_of_normalize (o : Option JsonObject) (e : JsonObject)
    (h : normalizeResult o = some e) : wireContractOk e := by
  cases o with
  | none => cases h
  | some r =>
      simp only [normalizeResult] at h
      repeat' split at h
      all_goals
        (injection h with h2; subst h2;
         first
           | exact wireContractOk_success r
           | exact wireContractOk_error _)

/-- Every envelope an object-returning family branch produces meets the wire
contract. -/
theorem wireContractOk_of_runObj (o : ObjOutcome) (e : JsonObject)
    (h : runObjFamily o = some e) : wireContractOk e := by
  cases o with
  | ok r => exact wireContractOk_of_normalize r e h
  | raise msg =>
      injection h with h2
      subst h2
      exact wireContractOk_error msg

/-- Every envelope a string-returning family branch produces meets the wire
contract. -/
theorem wireContractOk_of_runStr (d : String → Option JsonObject)
    (o : StrOutcome) (e : JsonObject) (h : runStrFamily d o = some e) :
    wireContractOk e := by
  cases o with
  | ok s => exact wireContractOk_of_normalize (d s) e h
  | raise msg =>
      injection h with h2
      subst h2
      exact wireContractOk_error msg

/-! ## Claim theorems -/

/-- C1: for every registered command name and parameter object, the dispatcher
returns a success-status envelope iff the handler's returned object (here the
`success` field, when present, is a boolean, as the handler interface
prescribes) does not contain a `success` field holding false; and in that
case — in particular whenever the `success` field is absent — the envelope is
exactly the success envelope whose `result` field is the handler's returned
object, unmutated. -/
theorem claim1_dispatch_success_iff :
    ∀ (r : JsonObject) (name : String) (params : JsonObject),
    name ∈ allRegisteredCommandNames → name ≠ "ping" →
    successFieldBoolTyped r →
    ((∃ e, executeCommandTask (constEnv r) name params = some e ∧
        getField e "status" = some (Json.str "success")) ↔
      getField r "success" ≠ some (Json.bool false)) ∧
    (getField r "success" ≠ some (Json.bool false) →
      executeCommandTask (constEnv r) name params = some (successEnvelope r)) := by
  intro r name params hmem hping hbool
  rw [executeCommandTask_constEnv r name params hmem hping]
  rcases hgf : getField r "success" with _ | v
  · have hsucc : normalizeResult (some r) = some (successEnvelope r) :=
      normalize_no_success_field r (by simp [hasField, hgf])
    rw [hsucc]
    exact ⟨⟨fun _ => by simp [hgf], fun _ => ⟨successEnvelope r, rfl, rfl⟩⟩,
      fun _ => rfl⟩
  · obtain ⟨b, rfl⟩ := hbool v hgf
    cases b
    · rw [normalize_success_false r hgf]
      constructor
      · constructor
        · rintro ⟨e, he, hst⟩
          injection he with h2
          subst h2
          injection hst with h3
          injection h3 with h4
          exact absurd h4 (by decide)
        · intro hne
          exact absurd rfl hne
      · intro hne
        exact absurd rfl hne
    · rw [normalize_success_true r hgf]
      constructor
      · constructor
        · intro _
          intro hx
          injection hx with h4
          injection h4 with h5
          exact absurd h5 (by decide)
        · intro _
          exact ⟨successEnvelope r, rfl, rfl⟩
      · intro _
        rfl

/-- C2 counterexample: the claim says the unknown-command path never queues
work for the owner/game thread, but `ExecuteCommand` unconditionally queues
its task via `AsyncTask(ENamedThreads::GameThread, ...)` before any
command-name lookup happens, so an unregistered command still queues work. -/
theorem claim2_counterexample_submit_invoked :
    (executeCommand trivEnv false "does_not_exist" []).queuedOnGameThread = true ∧
    "does_not_exist" ∉ allRegisteredCommandNames :=
  ⟨rfl, by decide⟩

/-- C2 amended: for every command name not present in the registry, the
dispatcher returns the envelope with status `error` and error
`Unknown command: <name>`, and no registered handler is consulted (the
response is the same under every handler environment); however, the lookup
itself runs inside the task queued on the owner/game thread. -/
theorem claim2_amended_unknown_command :
    ∀ (env : HandlerEnv) (name : String) (params : JsonObject),
    name ∉ allRegisteredCommandNames →
    (executeCommand env false name params).response =
      some (errorEnvelope ("Unknown command: " ++ name)) ∧
    (∀ env2 : HandlerEnv,
      executeCommandTask env2 name params = executeCommandTask env name params) := by
  intro env name params h
  have hr := route_unknown_of_not_mem name h
  constructor
  · show executeCommandTask env name params = _
    unfold executeCommandTask
    rw [hr]
  · intro env2
    unfold executeCommandTask
    rw [hr]

/-- C3 (claim right, code wrong): a call of `ExecuteCommand` issued on the
owner/game thread itself is not detected or rejected — the source contains no
check of the calling thread, so the call still queues the task and enters the
blocking wait on the future (which the owner thread can then never satisfy),
instead of failing as a fatal programming error. -/
theorem claim3_owner_thread_call_not_detected :
    (executeCommand trivEnv true "ping" []).blockedOnFuture = true ∧
    (executeCommand trivEnv true "ping" []).queuedOnGameThread = true :=
  ⟨rfl, rfl⟩

/-- C4: for every registered command whose handler raises an internal error
during execution, the catch at the owner-thread boundary converts the error
into the error envelope carrying the exception message, and a response is
always produced (the error does not propagate out of the queued operation). -/
theorem claim4_handler_exception_caught :
    ∀ (msg : String) (name : String) (params : JsonObject),
    name ∈ allRegisteredCommandNames → name ≠ "ping" →
    executeCommandTask (raiseEnv msg) name params = some (errorEnvelope msg) :=
  fun msg name params hmem hping =>
    executeCommandTask_raiseEnv msg name params hmem hping

/-- C5: a handler result carrying its own `success:false` and `error` fields
is flattened into the single top-level envelope: the dispatcher returns
exactly the two-field error envelope whose `error` field is the handler's
message, with no nested second status layer. -/
theorem claim5_flatten_nested_error :
    ∀ (r : JsonObject) (msg : String) (name : String) (params : JsonObject),
    name ∈ allRegisteredCommandNames → name ≠ "ping" →
    getField r "success" = some (Json.bool false) →
    getField r "error" = some (Json.str msg) →
    executeCommandTask (constEnv r) name params = some (errorEnvelope msg) := by
  intro r msg name params hmem hping hs he
  rw [executeCommandTask_constEnv r name params hmem hping,
    normalize_success_false r hs]
  have hf : hasField r "error" = true := by simp [hasField, he]
  have hm : getStringField r "error" = msg := by
    simp [getStringField, he, Json.asString]
  simp [hf, hm]

/-- C6: every response envelope the dispatcher produces — on the success path,
the flattened-error path, the unknown-command path and the caught-exception
path, under every handler environment — satisfies the wire contract: status is
exactly `success` or `error`, the result field is present iff status is
`success`, and the error field is present iff status is `error`. -/
theorem claim6_wire_contract :
    ∀ (env : HandlerEnv) (name : String) (params : JsonObject) (e : JsonObject),
    executeCommandTask env name params = some e → wireContractOk e := by
  intro env name params e h
  unfold executeCommandTask at h
  cases hx : route name <;> rw [hx] at h
  case ping => exact wireContractOk_of_normalize _ e h
  case editor => exact wireContractOk_of_runObj _ e h
  case blueprint => exact wireContractOk_of_runObj _ e h
  case blueprintNode => exact wireContractOk_of_runObj _ e h
  case project => exact wireContractOk_of_runObj _ e h
  case umg => exact wireContractOk_of_runObj _ e h
  case asset => exact wireContractOk_of_runStr _ _ e h
  case contentBrowser => exact wireContractOk_of_runStr _ _ e h
  case assetRegistry => exact wireContractOk_of_runStr _ _ e h
  case level => exact wireContractOk_of_runStr _ _ e h
  case landscape => exact wireContractOk_of_runStr _ _ e h
  case world => exact wireContractOk_of_runStr _ _ e h
  case unknown =>
    injection h with h2
    subst h2
    exact wireContractOk_error _

/-- C9: the `ping` command with empty parameters is answered, under every
handler environment, with exactly the envelope
`status: success, result: (message: pong)`. -/
theorem claim9_ping_pong :
    ∀ env : HandlerEnv,
    executeCommandTask env "ping" [] =
      some (successEnvelope [("message", Json.str "pong")]) := by
  intro env
  rfl

/-- C7: `StopServer` is idempotent, is a no-op (without any exception — the
model is a total function) when the server is not running, in particular on
the freshly initialized state before any successful `StartServer`, and after
stopping a running server no listener thread, connection socket or listening
socket remains held. -/
theorem claim7_stop_idempotent_safe :
    ∀ s : BridgeState,
    stopServer (stopServer s) = stopServer s ∧
    (s.bIsRunning = false → stopServer s = s) ∧
    (s.bIsRunning = true →
      (stopServer s).bIsRunning = false ∧
      (stopServer s).serverThread = none ∧
      (stopServer s).connectionSocket = none ∧
      (stopServer s).listenerSocket = none) ∧
    stopServer initialBridgeState = initialBridgeState := by
  intro s
  refine ⟨?_, ?_, ?_, rfl⟩
  · rcases hb : s.bIsRunning <;> simp [stopServer, hb]
  · intro hb
    simp [stopServer, hb]
  · intro hb
    simp [stopServer, hb]

/-- C8: when binding or listening fails during `StartServer`, the call returns
(the model is a total function, so the host continues) with the server not
marked running, the listener socket, connection socket and thread references
unchanged (no listener thread is started), and exactly one error log entry
reporting the failure — in particular there is no automatic retry. -/
theorem claim8_start_bind_listen_failure :
    ∀ (s : BridgeState) (out : StartOutcome),
    s.bIsRunning = false → out.subsystemOk = true → out.socketOk = true →
    (out.bindOk = false ∨ (out.bindOk = true ∧ out.listenOk = false)) →
    (startServer s out).bIsRunning = false ∧
    (startServer s out).listenerSocket = s.listenerSocket ∧
    (startServer s out).connectionSocket = s.connectionSocket ∧
    (startServer s out).serverThread = s.serverThread ∧
    ((startServer s out).log = s.log ++ [LogEvent.errorBind] ∨
      (startServer s out).log = s.log ++ [LogEvent.errorListen]) := by
  intro s out hrun hsub hsock hfail
  rcases hfail with hb | ⟨hb, hl⟩
  · simp [startServer, hrun, hsub, hsock, hb]
  · simp [startServer, hrun, hsub, hsock, hb, hl]

/-! ## String-level lemmas for the JSON-text fallbacks -/

/-- Strings with equal character data are equal. -/
theorem string_eq_of_data (a b : String) (h : a.data = b.data) : a = b := by
  cases a with
  | mk la =>
      cases b with
      | mk lb => exact congrArg String.mk h

/-- The character data of an appended string. -/
theorem strDataAppend (a b : String) : (a ++ b).data = a.data ++ b.data := by
  cases a with
  | mk la =>
      cases b with
      | mk lb => rfl

/-- Appending on the right preserves being nonempty. -/
theorem append_ne_empty_of_left (a b : String) (ha : a ≠ "") : a ++ b ≠ "" := by
  intro hx
  apply ha
  have hd : a.data ++ b.data = ([] : List Char) := by
    have h2 := congrArg String.data hx
    rw [strDataAppend] at h2
    exact h2
  exact string_eq_of_data a "" (List.append_eq_nil.mp hd).1

/-- A character needing no escape serializes to itself. -/
theorem escapeChar_safe (c : Char) (h : jsonSafeChar c = true) :
    escapeChar c = [c] := by
  simp only [jsonSafeChar, Bool.not_eq_true', Bool.or_eq_false_iff,
    decide_eq_false_iff_not] at h
  obtain ⟨⟨h1, h2⟩, h3⟩ := h
  unfold escapeChar
  rw [if_neg h1, if_neg h2,
    if_neg (fun hx : c = '\n' => h3 (by rw [hx]; decide)),
    if_neg (fun hx : c = '\t' => h3 (by rw [hx]; decide)),
    if_neg (fun hx : c = '\r' => h3 (by rw [hx]; decide)),
    if_neg (fun hx : c = '\x08' => h3 (by rw [hx]; decide)),
    if_neg (fun hx : c = '\x0c' => h3 (by rw [hx]; decide)),
    if_neg h3]

/-- Escape-free character data serializes to itself. -/
theorem escape_data_of_safe (l : List Char) (h : l.all jsonSafeChar = true) :
    List.flatten (l.map escapeChar) = l := by
  induction l with
  | nil => rfl
  | cons c cs ih =>
      simp only [List.all_cons, Bool.and_eq_true] at h
      simp [escapeChar_safe c h.1, ih h.2]

/-- An escape-free string serializes to itself. -/
theorem escapeString_of_safe (s : String) (h : jsonSafe s = true) :
    escapeString s = s := by
  unfold jsonSafe at h
  unfold escapeString
  rw [escape_data_of_safe s.data h]

/-- String-body escaping distributes over append. -/
theorem escapeString_append (a b : String) :
    escapeString (a ++ b) = escapeString a ++ escapeString b := by
  apply string_eq_of_data
  rw [strDataAppend]
  show List.flatten (((a ++ b).data).map escapeChar) = _
  rw [strDataAppend, List.map_append, List.flatten_append]
  rfl

/-- The serialized text of the two-field object `success:false, error:<msg>`
is the brace-wrapped compact form with the escaped message inside. -/
theorem serialize_falseSuccessError (msg : String) :
    Json.serialize
        (Json.obj [("success", Json.bool false), ("error", Json.str msg)]) =
      "\x7b\"success\":false,\"error\":\"" ++ escapeString msg ++ "\"\x7d" := by
  simp only [Json.serialize, serializeFields]
  generalize escapeString msg = x
  apply string_eq_of_data
  simp only [strDataAppend, List.append_assoc]
  rfl

/-! ## Quote-parity invariant of serialized JSON

Any string produced by `Json.serialize` that contains no backslash contains an
even number of quote characters: every quote then comes from the fixed pair
around a string body or a key (whose escaped body is quote-free, since an
embedded quote would have produced a backslash).  The fallback text the asset
family emits for a sub-command name containing a quote is backslash-free with
an odd number of quotes, so it is no JSON object's serialization. -/

/-- The digit characters used by `Nat.repr` are never a quote. -/
theorem digitChar_ne_quote : ∀ m : Nat, Nat.digitChar m ≠ '\"'
  | 0 => by decide
  | 1 => by decide
  | 2 => by decide
  | 3 => by decide
  | 4 => by decide
  | 5 => by decide
  | 6 => by decide
  | 7 => by decide
  | 8 => by decide
  | 9 => by decide
  | 10 => by decide
  | 11 => by decide
  | 12 => by decide
  | 13 => by decide
  | 14 => by decide
  | 15 => by decide
  | n + 16 => by
      show ('*' : Char) ≠ '\"'
      decide

/-- `Nat.toDigitsCore` adds only digit characters, so it introduces no
quote. -/
theorem toDigitsCore_quote_not_mem (fuel : Nat) :
    ∀ (n : Nat) (acc : List Char), '\"' ∉ acc →
      '\"' ∉ Nat.toDigitsCore 10 fuel n acc := by
  induction fuel with
  | zero =>
      intro n acc hacc
      simpa [Nat.toDigitsCore] using hacc
  | succ f ih =>
      intro n acc hacc
      simp only [Nat.toDigitsCore]
      split
      · intro hx
        rcases List.mem_cons.mp hx with h | h
        · exact digitChar_ne_quote (n % 10) h.symm
        · exact hacc h
      · refine ih _ _ ?_
        intro hx
        rcases List.mem_cons.mp hx with h | h
        · exact digitChar_ne_quote (n % 10) h.symm
        · exact hacc h

/-- The decimal representation of a natural number contains no quote. -/
theorem nat_repr_quote_not_mem (n : Nat) : '\"' ∉ (Nat.repr n).data := by
  show '\"' ∉ Nat.toDigitsCore 10 (n + 1) n []
  exact toDigitsCore_quote_not_mem (n + 1) n [] (by simp)

/-- The decimal representation of an integer contains no quote. -/
theorem int_toString_quote_not_mem (n : Int) : '\"' ∉ (toString n).data := by
  cases n with
  | ofNat m => exact nat_repr_quote_not_mem m
  | negSucc m =>
      show '\"' ∉ (("-" : String) ++ toString (m + 1)).data
      rw [strDataAppend]
      simp only [List.mem_append, not_or]
      exact ⟨by decide, nat_repr_quote_not_mem (m + 1)⟩

/-- Escaping a character that needs escaping always emits a backslash. -/
theorem escapeChar_backslash_of_not_safe (c : Char) (h : jsonSafeChar c = false) :
    '\\' ∈ escapeChar c := by
  simp only [jsonSafeChar, Bool.not_eq_false', Bool.or_eq_true,
    decide_eq_true_eq] at h
  unfold escapeChar
  by_cases h1 : c = '\"'
  · rw [if_pos h1]; decide
  rw [if_neg h1]
  by_cases h2 : c = '\\'
  · rw [if_pos h2]; decide
  rw [if_neg h2]
  by_cases h3 : c = '\n'
  · rw [if_pos h3]; decide
  rw [if_neg h3]
  by_cases h4 : c = '\t'
  · rw [if_pos h4]; decide
  rw [if_neg h4]
  by_cases h5 : c = '\r'
  · rw [if_pos h5]; decide
  rw [if_neg h5]
  by_cases h6 : c = '\x08'
  · rw [if_pos h6]; decide
  rw [if_neg h6]
  by_cases h7 : c = '\x0c'
  · rw [if_pos h7]; decide
  rw [if_neg h7]
  have hv : c.val < 32 := by
    rcases h with (h | h) | h
    · exact absurd h h1
    · exact absurd h h2
    · exact h
  rw [if_pos hv]
  exact List.mem_cons_self _ _

/-- A backslash-free escaped string body contains no quote at all. -/
theorem escape_no_backslash_count (l : List Char)
    (h : '\\' ∉ List.flatten (l.map escapeChar)) :
    (List.flatten (l.map escapeChar)).count '\"' = 0 := by
  induction l with
  | nil => rfl
  | cons c cs ih =>
      simp only [List.map_cons, List.flatten_cons] at h ⊢
      simp only [List.mem_append, not_or] at h
      obtain ⟨h1, h2⟩ := h
      rcases hs : jsonSafeChar c with _ | _
      · exact absurd (escapeChar_backslash_of_not_safe c hs) h1
      · rw [escapeChar_safe c hs, List.count_append]
        have hcq : ¬(c = '\"') := by
          simp only [jsonSafeChar, Bool.not_eq_true', Bool.or_eq_false_iff,
            decide_eq_false_iff_not] at hs
          exact hs.1.1
        have hb : (('\"' : Char) == c) = false := by
          rw [beq_eq_false_iff_ne]
          exact fun hx => hcq hx.symm
        simp [List.count_cons, hb, ih h2, hcq]

mutual

/-- A backslash-free serialized JSON value has an even number of quotes. -/
theorem serialize_quote_parity :
    ∀ v : Json, '\\' ∉ (Json.serialize v).data →
      ((Json.serialize v).data.count '\"') % 2 = 0
  | .null, _ => by decide
  | .bool b, _ => by cases b <;> decide
  | .num n, _ => by
      have hq : '\"' ∉ (Json.serialize (Json.num n)).data :=
        int_toString_quote_not_mem n
      rw [List.count_eq_zero.mpr hq]
  | .str s, h => by
      simp only [Json.serialize] at h ⊢
      simp only [strDataAppend] at h ⊢
      simp only [List.mem_append, not_or] at h
      obtain ⟨⟨hq1, hb⟩, hq2⟩ := h
      simp only [List.count_append]
      have he : ((escapeString s).data.count '\"') = 0 :=
        escape_no_backslash_count s.data hb
      have c1 : (("\"" : String).data.count '\"') = 1 := by decide
      rw [he, c1]
  | .arr xs, h => by
      simp only [Json.serialize] at h ⊢
      simp only [strDataAppend] at h ⊢
      simp only [List.mem_append, not_or] at h
      obtain ⟨⟨hl, hm⟩, hr⟩ := h
      simp only [List.count_append]
      have e1 := serializeItems_quote_parity xs hm
      have c1 : List.count '\"' (['['] : List Char) = 0 := by decide
      have c2 : List.count '\"' ([']'] : List Char) = 0 := by decide
      omega
  | .obj fs, h => by
      simp only [Json.serialize] at h ⊢
      simp only [strDataAppend] at h ⊢
      simp only [List.mem_append, not_or] at h
      obtain ⟨⟨hl, hm⟩, hr⟩ := h
      simp only [List.count_append]
      have e1 := serializeFields_quote_parity fs hm
      have c1 : List.count '\"' (['\x7b'] : List Char) = 0 := by decide
      have c2 : List.count '\"' (['\x7d'] : List Char) = 0 := by decide
      omega

/-- A backslash-free serialized item list has an even number of quotes. -/
theorem serializeItems_quote_parity :
    ∀ xs : List Json, '\\' ∉ (serializeItems xs).data →
      ((serializeItems xs).data.count '\"') % 2 = 0
  | [], _ => by decide
  | [x], h => serialize_quote_parity x h
  | x :: y :: rest, h => by
      simp only [serializeItems] at h ⊢
      simp only [strDataAppend] at h ⊢
      simp only [List.mem_append, not_or] at h
      obtain ⟨⟨hx, hc⟩, hr⟩ := h
      simp only [List.count_append]
      have e1 := serialize_quote_parity x hx
      have e2 := serializeItems_quote_parity (y :: rest) hr
      have c1 : List.count '\"' ([','] : List Char) = 0 := by decide
      omega

/-- A backslash-free serialized field list has an even number of quotes. -/
theorem serializeFields_quote_parity :
    ∀ fs : List (String × Json), '\\' ∉ (serializeFields fs).data →
      ((serializeFields fs).data.count '\"') % 2 = 0
  | [], _ => by decide
  | [(k, v)], h => by
      simp only [serializeFields] at h ⊢
      simp only [strDataAppend] at h ⊢
      simp only [List.mem_append, not_or] at h
      obtain ⟨⟨⟨hq1, hk⟩, hq2⟩, hv⟩ := h
      simp only [List.count_append]
      have ek : ((escapeString k).data.count '\"') = 0 :=
        escape_no_backslash_count k.data hk
      have ev := serialize_quote_parity v hv
      have c1 : List.count '\"' (['\"'] : List Char) = 1 := by decide
      have c2 : List.count '\"' (['\"', ':'] : List Char) = 1 := by decide
      omega
  | (k, v) :: f :: rest, h => by
      simp only [serializeFields] at h ⊢
      simp only [strDataAppend] at h ⊢
      simp only [List.mem_append, not_or] at h
      obtain ⟨⟨⟨⟨⟨hq1, hk⟩, hq2⟩, hv⟩, hc⟩, hr⟩ := h
      simp only [List.count_append]
      have ek : ((escapeString k).data.count '\"') = 0 :=
        escape_no_backslash_count k.data hk
      have ev := serialize_quote_parity v hv
      have er := serializeFields_quote_parity (f :: rest) hr
      have c1 : List.count '\"' (['\"'] : List Char) = 1 := by decide
      have c2 : List.count '\"' (['\"', ':'] : List Char) = 1 := by decide
      have c3 : List.count '\"' ([','] : List Char) = 0 := by decide
      omega

end

/-- C10 counterexample: for the unrecognized sub-command name consisting of a
single quote character, the asset family's fallback splices the name into its
JSON text unescaped, producing a backslash-free string with an odd number of
quote characters (seven) — so the returned string is not the serialization of
any JSON object, refuting the claim as stated. -/
theorem claim10_counterexample :
    ("\"" ∉ assetCommandNames) ∧
    ¬∃ o : JsonObject,
      FUnrealMCPAssetCommands.HandleCommand (fun _ _ => "") "\"" [] =
        Json.serialize (Json.obj o) := by
  refine ⟨by decide, ?_⟩
  rintro ⟨o, ho⟩
  have hb : '\\' ∉ (Json.serialize (Json.obj o)).data := by
    rw [← ho]
    decide
  have hp := serialize_quote_parity (Json.obj o) hb
  rw [← ho] at hp
  have hc : ((FUnrealMCPAssetCommands.HandleCommand
      (fun _ _ => "") "\"" []).data.count '\"') = 7 := by decide
  omega

/-- C10 amended: for the four command-family routers, an unrecognized
sub-command name whose characters need no JSON escaping yields a string that
is the serialized form of a JSON object carrying `success:false` and a
non-empty `error` string, and the dispatcher's flattening step turns that
object into the top-level error envelope.  (For names containing a quote,
backslash or control character, the Asset and ContentBrowser fallbacks splice
the name into the JSON text unescaped and the output is malformed — see the
counterexample; the bridge itself only ever routes recognized names to these
families.) -/
theorem claim10_unknown_subcommand_error :
    ∀ (c : String) (params : JsonObject)
      (subA subC subL subW : String → JsonObject → String),
    c ∉ assetCommandNames → c ∉ contentBrowserCommandNames →
    c ∉ levelCommandNames → c ∉ worldCommandNames → jsonSafe c = true →
    (∃ o : JsonObject, ∃ m : String,
      FUnrealMCPAssetCommands.HandleCommand subA c params =
        Json.serialize (Json.obj o) ∧
      getField o "success" = some (Json.bool false) ∧
      getField o "error" = some (Json.str m) ∧ m ≠ "" ∧
      normalizeResult (some o) = some (errorEnvelope m)) ∧
    (∃ o : JsonObject, ∃ m : String,
      FUnrealMCPContentBrowserCommands.HandleCommand subC c params =
        Json.serialize (Json.obj o) ∧
      getField o "success" = some (Json.bool false) ∧
      getField o "error" = some (Json.str m) ∧ m ≠ "" ∧
      normalizeResult (some o) = some (errorEnvelope m)) ∧
    (∃ o : JsonObject, ∃ m : String,
      FUnrealMCPLevelCommands.HandleCommand subL c params =
        Json.serialize (Json.obj o) ∧
      getField o "success" = some (Json.bool false) ∧
      getField o "error" = some (Json.str m) ∧ m ≠ "" ∧
      normalizeResult (some o) = some (errorEnvelope m)) ∧
    (∃ o : JsonObject, ∃ m : String,
      FUnrealMCPWorldCommands.HandleCommand subW c params =
        Json.serialize (Json.obj o) ∧
      getField o "success" = some (Json.bool false) ∧
      getField o "error" = some (Json.str m) ∧ m ≠ "" ∧
      normalizeResult (some o) = some (errorEnvelope m)) := by
  intro c params subA subC subL subW hA hC hL hW hsafe
  refine ⟨?_, ?_, ?_, ?_⟩
  · simp only [assetCommandNames, List.mem_cons, List.not_mem_nil,
      or_false] at hA
    push_neg at hA
    obtain ⟨n1, n2, n3, n4, n5, n6, n7, n8⟩ := hA
    refine ⟨[("success", Json.bool false),
        ("error", Json.str ("Unknown asset command: " ++ c))],
      "Unknown asset command: " ++ c, ?_, rfl, rfl, ?_, rfl⟩
    · unfold FUnrealMCPAssetCommands.HandleCommand
      rw [if_neg n1, if_neg n2, if_neg n3, if_neg n4, if_neg n5, if_neg n6,
        if_neg n7, if_neg n8, serialize_falseSuccessError,
        escapeString_append, escapeString_of_safe c hsafe]
      apply string_eq_of_data
      simp only [strDataAppend, List.append_assoc]
      rfl
    · exact append_ne_empty_of_left _ c (by decide)
  · simp only [contentBrowserCommandNames, List.mem_cons, List.not_mem_nil,
      or_false] at hC
    push_neg at hC
    obtain ⟨n1, n2, n3⟩ := hC
    refine ⟨[("success", Json.bool false),
        ("error", Json.str ("Unknown content browser command: " ++ c))],
      "Unknown content browser command: " ++ c, ?_, rfl, rfl, ?_, rfl⟩
    · unfold FUnrealMCPContentBrowserCommands.HandleCommand
      rw [if_neg n1, if_neg n2, if_neg n3, serialize_falseSuccessError,
        escapeString_append, escapeString_of_safe c hsafe]
      apply string_eq_of_data
      simp only [strDataAppend, List.append_assoc]
      rfl
    · exact append_ne_empty_of_left _ c (by decide)
  · simp only [levelCommandNames, List.mem_cons, List.not_mem_nil,
      or_false] at hL
    push_neg at hL
    obtain ⟨n1, n2, n3, n4, n5, n6, n7⟩ := hL
    refine ⟨[("success", Json.bool false),
        ("error", Json.str "Unknown level command")],
      "Unknown level command", ?_, rfl, rfl, by decide, rfl⟩
    unfold FUnrealMCPLevelCommands.HandleCommand
    rw [if_neg n1, if_neg n2, if_neg n3, if_neg n4, if_neg n5, if_neg n6,
      if_neg n7, serialize_falseSuccessError]
    apply string_eq_of_data
    simp only [strDataAppend, List.append_assoc]
    rfl
  · simp only [worldCommandNames, List.mem_cons, List.not_mem_nil,
      or_false] at hW
    push_neg at hW
    refine ⟨[("success", Json.bool false),
        ("error", Json.str "Unknown world command")],
      "Unknown world command", ?_, rfl, rfl, by decide, rfl⟩
    unfold FUnrealMCPWorldCommands.HandleCommand
    rw [if_neg hW, serialize_falseSuccessError]
    apply string_eq_of_data
    simp only [strDataAppend, List.append_assoc]
    rfl

/-! ## Witnesses -/

/-- Witness for C1 at the registered command `load_asset` and a handler result
without a `success` field. -/
theorem claim1_witness :
    ("load_asset" ∈ allRegisteredCommandNames) ∧
    executeCommandTask (constEnv [("message", Json.str "ok")]) "load_asset" [] =
      some (successEnvelope [("message", Json.str "ok")]) := by
  have h := claim1_dispatch_success_iff [("message", Json.str "ok")]
    "load_asset" [] (by decide) (by decide) (fun v hv => nomatch hv)
  exact ⟨by decide, h.2 (fun hx => nomatch hx)⟩

/-- Witness for the amended C2 at a concrete unregistered command name. -/
theorem claim2_witness :
    ("definitely_unknown" ∉ allRegisteredCommandNames) ∧
    (executeCommand trivEnv false "definitely_unknown" []).response =
      some (errorEnvelope ("Unknown command: " ++ "definitely_unknown")) := by
  have h := claim2_amended_unknown_command trivEnv "definitely_unknown" []
    (by decide)
  exact ⟨by decide, h.1⟩

/-- Witness for C4 at the registered command `load_level` and a raising
handler. -/
theorem claim4_witness :
    executeCommandTask (raiseEnv "boom") "load_level" [] =
      some (errorEnvelope "boom") :=
  claim4_handler_exception_caught "boom" "load_level" [] (by decide) (by decide)

/-- Witness for C5 at the registered command `spawn_actor` and a handler
result carrying `success:false` and an error message. -/
theorem claim5_witness :
    executeCommandTask
        (constEnv [("success", Json.bool false),
          ("error", Json.str "no such actor")]) "spawn_actor" [] =
      some (errorEnvelope "no such actor") :=
  claim5_flatten_nested_error
    [("success", Json.bool false), ("error", Json.str "no such actor")]
    "no such actor" "spawn_actor" [] (by decide) (by decide) rfl rfl

/-- Witness for C6 at the ping envelope. -/
theorem claim6_witness :
    wireContractOk (successEnvelope [("message", Json.str "pong")]) :=
  claim6_wire_contract trivEnv "ping" []
    (successEnvelope [("message", Json.str "pong")]) rfl

/-- Witness for C7 at a concrete running state. -/
theorem claim7_witness :
    stopServer (stopServer ⟨true, some 1, some 2, some 3, []⟩) =
      stopServer ⟨true, some 1, some 2, some 3, []⟩ ∧
    (stopServer ⟨true, some 1, some 2, some 3, []⟩).listenerSocket = none := by
  have h := claim7_stop_idempotent_safe ⟨true, some 1, some 2, some 3, []⟩
  exact ⟨h.1, (h.2.2.1 rfl).2.2.2⟩

/-- Witness for C8 at a concrete bind failure on the initialized state. -/
theorem claim8_witness :
    (startServer ⟨false, none, none, none, []⟩
        ⟨true, true, false, true, true, 7, 8⟩).bIsRunning = false := by
  have h := claim8_start_bind_listen_failure ⟨false, none, none, none, []⟩
    ⟨true, true, false, true, true, 7, 8⟩ rfl rfl rfl (Or.inl rfl)
  exact h.1

/-- Witness for C9 at the trivial handler environment. -/
theorem claim9_witness :
    executeCommandTask trivEnv "ping" [] =
      some (successEnvelope [("message", Json.str "pong")]) :=
  claim9_ping_pong trivEnv

/-- Witness for C10 at the concrete unrecognized sub-command
`bogus_command` on the world family. -/
theorem claim10_witness :
    ∃ o : JsonObject, ∃ m : String,
      FUnrealMCPWorldCommands.HandleCommand (fun _ _ => "") "bogus_command" [] =
        Json.serialize (Json.obj o) ∧
      getField o "success" = some (Json.bool false) ∧
      getField o "error" = some (Json.str m) ∧ m ≠ "" ∧
      normalizeResult (some o) = some (errorEnvelope m) :=
  (claim10_unknown_subcommand_error "bogus_command" []
    (fun _ _ => "") (fun _ _ => "") (fun _ _ => "") (fun _ _ => "")
    (by decide) (by decide) (by decide) (by decide) (by decide)).2.2.2

end UnrealMCP
